import Mathlib

/-!
Shallow embedding of `minifigures.py` (LegoMinifiguresScript): a four-stage
batch pipeline reading an Excel sheet of (link, quantity) rows, scraping a
name/price/image per link, sorting by price and rendering a PDF report.

Strings are modelled as `List Char`; Python floats carried in quantity cells
are modelled by `PyFloat` (NaN or an exact rational); decimal prices are
modelled as rationals. External effects (the browser, HTTP, pandas, fpdf)
are modelled by explicit environments and by returning the drawn rows.
-/

namespace Minifigures

/-- The apostrophe character (code point 39), kept out of literals. -/
def apostropheChar : Char := Char.ofNat 39

/- Constants from the source (`minifigures.py`, module-level globals). -/

def IMG_PATH : List Char := "img".data

def EXCEL_SHEET_NAME : List Char := "Minifigures".data

def USED_FIGURE_TABLE_ID : Nat := 1

def MINIFIGURE_NAME_MAX_LENGTH : Nat := 46

/-- The fixed literal part of `AVG_PRICE_PATTERN = r"Avg Price: UAH ([\d,]+\.\d+)"`. -/
def AVG_PRICE_LITERAL : List Char := "Avg Price: UAH ".data

/-- A Python float as it occurs in quantity cells: NaN or an exact numeric
value (modelled as a rational). -/
inductive PyFloat where
  | nan : PyFloat
  | val (q : ℚ) : PyFloat
deriving DecidableEq

/-- `math.isnan`. -/
def PyFloat.isnan : PyFloat → Bool
  | .nan => true
  | .val _ => false

/-- Python `int(_)` on a float: truncation toward zero. (`int(nan)` raises in
Python; every call site in the source is guarded by an `isnan` check, so the
`nan` branch here is unreachable and its value is irrelevant.) -/
def PyFloat.toInt : PyFloat → Int
  | .nan => 0
  | .val q => if 0 ≤ q then ⌊q⌋ else ⌈q⌉

/-- `MinifigureInputData = namedtuple(..., ["link", "quantity"])`. -/
structure MinifigureInputData where
  link : List Char
  quantity : Option PyFloat
deriving DecidableEq

/-- `MinifigureWebData = namedtuple(..., ["name", "price", "quantity", "image"])`. -/
structure MinifigureWebData where
  name : List Char
  price : ℚ
  quantity : Option PyFloat
  image : List Char
deriving DecidableEq

/- Input loader (`read_excel`). -/

/-- One spreadsheet row as pandas hands it to the loop: the value in the
Link column and the value in the Quantity column.  pandas represents an
empty quantity cell in a present column as NaN. -/
structure SheetRow where
  link : List Char
  quantity : PyFloat
deriving DecidableEq

/-- The designated sheet as a pandas DataFrame: which of the two named
columns are present, and the rows in order. -/
structure Sheet where
  hasLinkColumn : Bool
  hasQuantityColumn : Bool
  rows : List SheetRow
deriving DecidableEq

/-- The spreadsheet file: `none` when it has no sheet named
`EXCEL_SHEET_NAME` (then `pandas.read_excel` raises). -/
structure ExcelEnv where
  sheet : Option Sheet

/-- The DataFormatError taxonomy of the spec: missing sheet (raised by
`pandas.read_excel`) or missing Link column (the `KeyError` from
`row[EXCEL_LINK_COLUMN_NAME]`). -/
inductive DataFormatError where
  | missingSheet
  | missingLinkColumn
deriving DecidableEq

/-- The row loop of `read_excel`: `row[Link]` raises when the Link column is
absent (first iteration); `row.get(Quantity, None)` yields the cell value
when the Quantity column is present and `None` otherwise. -/
def readRows (s : Sheet) : List SheetRow → Except DataFormatError (List MinifigureInputData)
  | [] => .ok []
  | row :: rest =>
    if s.hasLinkColumn then
      match readRows s rest with
      | .error e => .error e
      | .ok tail =>
        .ok ({ link := row.link,
               quantity := if s.hasQuantityColumn then some row.quantity else none } :: tail)
    else
      .error .missingLinkColumn

/-- `read_excel`: load the designated sheet, then run the row loop. -/
def read_excel (env : ExcelEnv) : Except DataFormatError (List MinifigureInputData) :=
  match env.sheet with
  | none => .error .missingSheet
  | some s => readRows s s.rows

/- Name normalization. -/

/-- `normalize_minifigure_name`: the regex substitution on line 55 removes every
apostrophe and every slash, keeping all other characters in order. -/
def normalize_minifigure_name (name : List Char) : List Char :=
  name.filter (fun c => !(c == apostropheChar || c == '/'))

/-- The in-loop truncation (`fetch_minifigures_data`, after normalization):
if the normalized name exceeds `MINIFIGURE_NAME_MAX_LENGTH`, keep its first
`MINIFIGURE_NAME_MAX_LENGTH` characters and append `"..."`. -/
def fetchedDisplayName (fetched_name : List Char) : List Char :=
  let minifigure_name := normalize_minifigure_name fetched_name
  if MINIFIGURE_NAME_MAX_LENGTH < minifigure_name.length then
    minifigure_name.take MINIFIGURE_NAME_MAX_LENGTH ++ "...".data
  else
    minifigure_name

/- Price extraction: `re.search(AVG_PRICE_PATTERN, text)` then
`float(group(1).replace(",", ""))`. -/

/-- Membership in the character class `[\d,]` (ASCII digits and comma). -/
def isNumChar (c : Char) : Bool := c.isDigit || c == ','

/-- Match `([\d,]+\.\d+)` at the start of `cs`, returning the captured
group.  Both quantifiers are greedy; because the class `[\d,]` excludes the
dot, the greedy maximal runs are the only candidates and no backtracking can
succeed where they fail. -/
def matchPriceGroup (cs : List Char) : Option (List Char) :=
  let run1 := cs.takeWhile isNumChar
  let rest1 := cs.dropWhile isNumChar
  if run1.isEmpty then none
  else
    match rest1 with
    | [] => none
    | c :: rest2 =>
      if c == '.' then
        let run2 := rest2.takeWhile Char.isDigit
        if run2.isEmpty then none else some (run1 ++ c :: run2)
      else none

/-- `re.search`: try each start position left to right; a position matches
when the fixed literal occurs there followed by a number; return the first
captured group. -/
def searchAvgPrice : List Char → Option (List Char)
  | [] => none
  | c :: cs =>
    if AVG_PRICE_LITERAL.isPrefixOf (c :: cs) then
      match matchPriceGroup ((c :: cs).drop AVG_PRICE_LITERAL.length) with
      | some g => some g
      | none => searchAvgPrice cs
    else
      searchAvgPrice cs

/-- The regex pattern matches at position `i` of `s`. -/
def priceMatchAt (s : List Char) (i : Nat) : Bool :=
  AVG_PRICE_LITERAL.isPrefixOf (s.drop i)
    && (matchPriceGroup ((s.drop i).drop AVG_PRICE_LITERAL.length)).isSome

/-- The regex pattern occurs somewhere in `s`. -/
def pricePatternOccurs (s : List Char) : Prop :=
  ∃ i, priceMatchAt s i = true

/-- Decimal digit run to a natural number. -/
def digitsToNat (ds : List Char) : Nat :=
  ds.foldl (fun a c => 10 * a + (c.toNat - 48)) 0

/-- `float(group.replace(",", ""))` on a capture of `[\d,]+\.\d+`: strip the
commas; the digits before the single dot form the integer part and the
digits after it the fractional part. -/
def parsePriceText (g : List Char) : ℚ :=
  let g2 := g.filter (fun c => !(c == ','))
  let intPart := g2.takeWhile (fun c => !(c == '.'))
  let fracPart := (g2.dropWhile (fun c => !(c == '.'))).drop 1
  (digitsToNat intPart : ℚ) + (digitsToNat fracPart : ℚ) / (10 : ℚ) ^ fracPart.length

/-- Lines 80–81 of the source: search the table text for the pattern and
parse the capture; `none` models the error raised when the pattern is
absent (the ParseError of the spec). -/
def extractAvgPrice (table_text : List Char) : Option ℚ :=
  (searchAvgPrice table_text).map parsePriceText

/- Web fetcher (`fetch_minifigures_data`). -/

/-- What one product page yields to the scraper: the text of the title element
(`none` when the element lookup raises), the texts of the elements of the
price-summary class in page order, the `src` attribute of the main image
(`none` when the element or attribute is missing), and the HTTP status code
of the image download. -/
structure PageData where
  nameText : Option (List Char)
  priceTableTexts : List (List Char)
  imageUrl : Option (List Char)
  imageStatus : Nat

/-- The web environment: each link determines the page served for it. -/
def WebEnv : Type := List Char → PageData

/-- The error taxonomy the spec gives for the fetch stage: PageStructureError
(element lookup or the hard-coded second-table index fails), ParseError
(price pattern not found), FetchError (non-200 image response, raised as
`ValueError(f"Failed to get image of {link}")`). -/
inductive FetchStageError where
  | pageStructure
  | parse
  | httpError (link : List Char)
deriving DecidableEq

/-- One iteration of the fetch loop (lines 71–96): name lookup and
normalization, price-table lookup at index `USED_FIGURE_TABLE_ID`, regex
extraction, image lookup, HTTP download with status check, image save, and
the `MinifigureWebData` appended on success. -/
def fetch_one (env : WebEnv) (input_element : MinifigureInputData) :
    Except FetchStageError MinifigureWebData :=
  let page := env input_element.link
  match page.nameText with
  | none => .error .pageStructure
  | some fetched_name =>
    let minifigure_name := fetchedDisplayName fetched_name
    match page.priceTableTexts.get? USED_FIGURE_TABLE_ID with
    | none => .error .pageStructure
    | some table_text =>
      match extractAvgPrice table_text with
      | none => .error .parse
      | some minifigure_price =>
        match page.imageUrl with
        | none => .error .pageStructure
        | some _ =>
          if page.imageStatus == 200 then
            .ok { name := minifigure_name,
                  price := minifigure_price,
                  quantity := input_element.quantity,
                  image := IMG_PATH ++ '/' :: minifigure_name ++ ".jpg".data }
          else
            .error (.httpError input_element.link)

/-- `fetch_minifigures_data`: run the loop over the whole input list; any
raised error aborts the run and discards the local result list. -/
def fetch_minifigures_data (env : WebEnv) :
    List MinifigureInputData → Except FetchStageError (List MinifigureWebData)
  | [] => .ok []
  | r :: rs =>
    match fetch_one env r with
    | .error e => .error e
    | .ok item =>
      match fetch_minifigures_data env rs with
      | .error e => .error e
      | .ok rest => .ok (item :: rest)

/-- The contents of the local `result_list` of the loop at the moment the run
ends (normally or by a raised error): exactly the items appended before the
first failing record. -/
def emittedItems (env : WebEnv) : List MinifigureInputData → List MinifigureWebData
  | [] => []
  | r :: rs =>
    match fetch_one env r with
    | .error _ => []
    | .ok item => item :: emittedItems env rs

/-- The per-record steps strictly before the image HTTP download all
succeed: the title element exists, the second price table exists and its
text contains the price pattern, and the image element yields a `src`. -/
def reachesImageDownload (page : PageData) : Bool :=
  page.nameText.isSome
    && (match page.priceTableTexts.get? USED_FIGURE_TABLE_ID with
        | none => false
        | some t => (extractAvgPrice t).isSome)
    && page.imageUrl.isSome

/- Aggregator (`sort_minifigure_list`). -/

/-- The effective quantity used in the total (line 106):
`1 if quantity is None or math.isnan(quantity) else int(quantity)`. -/
def effective_quantity : Option PyFloat → Int
  | none => 1
  | some f => if f.isnan then 1 else f.toInt

/-- `sort_minifigure_list`: `sorted(input_list, key=lambda x: x.price,
reverse=True)` is the stable Python sort run descending on the price key,
modelled by the stable `List.mergeSort` under the flipped comparison; the
total is summed over the sorted list. -/
def sort_minifigure_list (input_list : List MinifigureWebData) :
    ℚ × List MinifigureWebData :=
  let minifigures_sorted := input_list.mergeSort (fun a b => decide (b.price ≤ a.price))
  let total_value :=
    (minifigures_sorted.map
      (fun figure => figure.price * (effective_quantity figure.quantity : ℚ))).sum
  (total_value, minifigures_sorted)

/- Report renderer (`create_pdf_document`). -/

/-- the default fpdf page margin (1 cm expressed in mm units:
`28.35 / (72 / 25.4)`); `add_page` resets the y cursor to it. -/
def PDF_TOP_MARGIN : ℚ := 8001 / 800

/-- One item row of the report as drawn by the loop body: the y cursor on
entry, whether the pagination check started a new page, the y at which the
row is drawn, the 1-based rank printed in the name cell, and the data of
the three cells (name, price with optional quantity suffix, image). -/
structure PdfRow where
  yIn : ℚ
  pageBreak : Bool
  y : ℚ
  rank : Nat
  name : List Char
  price : ℚ
  qtySuffix : Option Int
  image : List Char
deriving DecidableEq

/-- The quantity suffix of the price cell (line 133): no suffix when
`not quantity or math.isnan(quantity)` — i.e. when quantity is `None`,
numerically equal to zero (Python falsiness), or NaN (NaN is truthy, caught
by the second disjunct) — otherwise the suffix `x{int(quantity)}`. -/
def price_cell_suffix : Option PyFloat → Option Int
  | none => none
  | some .nan => none
  | some (.val q) => if q = 0 then none else some (PyFloat.toInt (.val q))

/-- The item loop of `create_pdf_document`: before drawing, start a new page
(cursor back to the top margin) exactly when the cursor exceeds 260; draw
the row at the resulting cursor; advance the cursor by 22 (`pdf.ln(22)`)
and the rank by one. -/
def renderRows (element_index : Nat) (y : ℚ) :
    List MinifigureWebData → List PdfRow
  | [] => []
  | minifigure_data :: rest =>
    let y1 := if 260 < y then PDF_TOP_MARGIN else y
    { yIn := y,
      pageBreak := decide (260 < y),
      y := y1,
      rank := element_index,
      name := minifigure_data.name,
      price := minifigure_data.price,
      qtySuffix := price_cell_suffix minifigure_data.quantity,
      image := minifigure_data.image }
      :: renderRows (element_index + 1) (y1 + 22) rest

/-- `create_pdf_document`: after `add_page` the cursor is at the top
margin; the header cell (`ln=True`) advances it by its height 10 and
`pdf.ln(10)` by 10 more; then the item loop runs from rank 1. -/
def create_pdf_document (input_list : List MinifigureWebData) : List PdfRow :=
  renderRows 1 (PDF_TOP_MARGIN + 10 + 10) input_list

/- Entry point (`main`). -/

/-- Any error aborting the run, tagged by the stage that raised it. -/
inductive RunError where
  | dataFormat (e : DataFormatError)
  | fetch (e : FetchStageError)
deriving DecidableEq

/-- `main`: read the spreadsheet, fetch, sort, render.  The pair
(total value, drawn rows) models the produced output document; an error at
any stage aborts the run with no document produced. -/
def main (excel : ExcelEnv) (web : WebEnv) : Except RunError (ℚ × List PdfRow) :=
  match read_excel excel with
  | .error e => .error (.dataFormat e)
  | .ok input_list =>
    match fetch_minifigures_data web input_list with
    | .error e => .error (.fetch e)
    | .ok web_data_list =>
      let sorted := sort_minifigure_list web_data_list
      .ok (sorted.1, create_pdf_document sorted.2)

/- Concrete data used to exercise the definitions. -/

/-- The example raw name from the spec (with an apostrophe and a slash). -/
def exampleRawName : List Char := "R2-D2".data ++ apostropheChar :: "s Droid/Unit".data

/-- The text of the price-extraction counterexample: it contains the example
substring of the spec followed by one more digit. -/
def C3text : List Char := "Avg Price: UAH 1,234.509".data

/-- The example price text of the spec, exactly. -/
def C3goodText : List Char := "Avg Price: UAH 1,234.50".data

/-- The capture the regex produces on the example text of the spec. -/
def examplePriceGroup : List Char := "1,234.50".data

/-- An item whose quantity is the numeric value zero. -/
def C7item : MinifigureWebData :=
  { name := "Zero Qty".data, price := 10, quantity := some (.val 0), image := "img/z.jpg".data }

/-- A 60-character name with no apostrophes or slashes. -/
def wName60 : List Char := List.replicate 60 'a'

def wLink1 : List Char := "http://site/item1".data

def wLink2 : List Char := "http://site/item2".data

def wLink3 : List Char := "http://site/item3".data

/-- A page on which every scrape step succeeds. -/
def wGoodPage : PageData :=
  { nameText := some "Some Minifigure".data,
    priceTableTexts := ["new".data, "Avg Price: UAH 10.00".data],
    imageUrl := some "http://site/img.png".data,
    imageStatus := 200 }

/-- The same page with a failing image download. -/
def wBadPage : PageData := { wGoodPage with imageStatus := 404 }

/-- A web environment failing exactly on the second link. -/
def wWeb : WebEnv := fun link => if link = wLink2 then wBadPage else wGoodPage

/-- An environment on which every link succeeds. -/
def wWebAllGood : WebEnv := fun _ => wGoodPage

def wr1 : MinifigureInputData := { link := wLink1, quantity := none }

def wr2 : MinifigureInputData := { link := wLink2, quantity := none }

def wr3 : MinifigureInputData := { link := wLink3, quantity := none }

/-- A three-row spreadsheet with a Link column and no Quantity column. -/
def wC5excel : ExcelEnv :=
  { sheet := some
      { hasLinkColumn := true,
        hasQuantityColumn := false,
        rows := [{ link := wLink1, quantity := .nan },
                 { link := wLink2, quantity := .nan },
                 { link := wLink3, quantity := .nan }] } }

/-- A one-row sheet whose Quantity column is present but whose quantity
cell is empty (pandas reads it as NaN). -/
def C8sheet : Sheet :=
  { hasLinkColumn := true,
    hasQuantityColumn := true,
    rows := [{ link := wLink1, quantity := .nan }] }

/-!
Theorems.
-/

/-- C10: the character-stripping normalization is idempotent. -/
theorem C10_normalize_idempotent (s : List Char) :
    normalize_minifigure_name (normalize_minifigure_name s) = normalize_minifigure_name s := by
  simp [normalize_minifigure_name, List.filter_filter]

/-- C1: the Aggregator total value equals the sum over all fetched items
of price times effective quantity, the effective quantity being exactly 1
when the quantity is absent (None) or NaN and the integer value of the
quantity otherwise. -/
theorem C1_total_value (input_list : List MinifigureWebData) :
    (sort_minifigure_list input_list).1 =
      (input_list.map
        (fun figure => figure.price * (effective_quantity figure.quantity : ℚ))).sum
    ∧ effective_quantity none = 1
    ∧ effective_quantity (some PyFloat.nan) = 1
    ∧ ∀ q : ℚ, effective_quantity (some (PyFloat.val q)) = PyFloat.toInt (PyFloat.val q) := by
  refine ⟨?_, rfl, rfl, fun q => rfl⟩
  have h :=
    ((List.mergeSort_perm input_list (fun a b => decide (b.price ≤ a.price))).map
      (fun figure => figure.price * (effective_quantity figure.quantity : ℚ))).sum_eq
  simpa [sort_minifigure_list] using h

/-- C9: before each item row the vertical cursor is compared with the fixed
threshold 260 and a page break happens exactly when it exceeds it, so every
row is begun at a cursor position of at most 260. -/
theorem C9_pagination (input_list : List MinifigureWebData) :
    ∀ row ∈ create_pdf_document input_list,
      (row.pageBreak = true ↔ 260 < row.yIn) ∧ row.y ≤ 260 := by
  have general : ∀ (l : List MinifigureWebData) (idx : Nat) (y : ℚ),
      ∀ row ∈ renderRows idx y l,
        (row.pageBreak = true ↔ 260 < row.yIn) ∧ row.y ≤ 260 := by
    intro l
    induction l with
    | nil => intro idx y row hrow; simp [renderRows] at hrow
    | cons d ds ih =>
      intro idx y row hrow
      rw [renderRows, List.mem_cons] at hrow
      rcases hrow with h | h
      · subst h
        refine ⟨by simp, ?_⟩
        by_cases hy : 260 < y
        · simp only [hy, if_pos]
          norm_num [PDF_TOP_MARGIN]
        · simp only [hy, if_neg, not_false_iff]
          simpa using le_of_not_lt hy
      · exact ih _ _ row h
  exact general input_list 1 (PDF_TOP_MARGIN + 10 + 10)

/-- C9 witness: the single row of a concrete one-item report satisfies the
pagination property. -/
theorem C9_pagination_witness :
    (∃ row ∈ create_pdf_document [C7item],
      (row.pageBreak = true ↔ 260 < row.yIn) ∧ row.y ≤ 260) := by
  obtain ⟨row, hrow⟩ : ∃ row, row ∈ create_pdf_document [C7item] :=
    ⟨_, List.mem_cons_self _ _⟩
  exact ⟨row, hrow, C9_pagination [C7item] row hrow⟩

/-- C4: normalization removes every apostrophe and slash (including the example of the spec); when the stripped name exceeds the 46-character maximum it is
truncated to its first 46 characters with an ellipsis appended, and
otherwise left as is; a 60-character name without stripped characters
yields 46 characters plus the three-character marker. -/
theorem C4_name_normalization (name : List Char) :
    normalize_minifigure_name exampleRawName = "R2-D2s DroidUnit".data
    ∧ (∀ c ∈ normalize_minifigure_name name, c ≠ apostropheChar ∧ c ≠ '/')
    ∧ (MINIFIGURE_NAME_MAX_LENGTH < (normalize_minifigure_name name).length →
        fetchedDisplayName name =
          (normalize_minifigure_name name).take MINIFIGURE_NAME_MAX_LENGTH ++ "...".data)
    ∧ ((normalize_minifigure_name name).length ≤ MINIFIGURE_NAME_MAX_LENGTH →
        fetchedDisplayName name = normalize_minifigure_name name)
    ∧ (name.length = 60 → (∀ c ∈ name, c ≠ apostropheChar ∧ c ≠ '/') →
        fetchedDisplayName name = name.take MINIFIGURE_NAME_MAX_LENGTH ++ "...".data
        ∧ (fetchedDisplayName name).length = 49) := by
  refine ⟨by decide, ?_, ?_, ?_, ?_⟩
  · intro c hc
    have := List.of_mem_filter hc
    simp only [Bool.not_eq_true', Bool.or_eq_false_iff, beq_eq_false_iff_ne] at this
    exact this
  · intro h
    simp only [fetchedDisplayName, if_pos h]
  · intro h
    simp only [fetchedDisplayName, if_neg (not_lt.mpr h)]
  · intro hlen hchars
    have hid : normalize_minifigure_name name = name := by
      apply List.filter_eq_self.mpr
      intro c hc
      simp only [Bool.not_eq_true', Bool.or_eq_false_iff, beq_eq_false_iff_ne]
      exact (hchars c hc)
    have hgt : MINIFIGURE_NAME_MAX_LENGTH < (normalize_minifigure_name name).length := by
      rw [hid, hlen]; decide
    constructor
    · rw [fetchedDisplayName, hid]
      simp only [if_pos (by rw [hlen]; decide : MINIFIGURE_NAME_MAX_LENGTH < name.length)]
    · rw [fetchedDisplayName, hid]
      rw [if_pos (by rw [hlen]; decide : MINIFIGURE_NAME_MAX_LENGTH < name.length)]
      simp only [List.length_append, List.length_take, hlen]
      decide

/-- C4 witness: the normalization and truncation facts at the concrete
60-character name. -/
theorem C4_name_normalization_witness :
    wName60.length = 60
    ∧ (∀ c ∈ wName60, c ≠ apostropheChar ∧ c ≠ '/')
    ∧ fetchedDisplayName wName60 = wName60.take MINIFIGURE_NAME_MAX_LENGTH ++ "...".data
    ∧ (fetchedDisplayName wName60).length = 49 := by
  have h := C4_name_normalization wName60
  have h6 : wName60.length = 60 := by decide
  have hc : ∀ c ∈ wName60, c ≠ apostropheChar ∧ c ≠ '/' := by decide
  obtain ⟨h1, h2⟩ := h.2.2.2.2 h6 hc
  exact ⟨h6, hc, h1, h2⟩

/-- The comparison the sort runs on (descending by price). -/
def priceDescLE (a b : MinifigureWebData) : Bool := decide (b.price ≤ a.price)

theorem priceDescLE_trans (a b c : MinifigureWebData) :
    priceDescLE a b → priceDescLE b c → priceDescLE a c := by
  simp only [priceDescLE, decide_eq_true_eq]
  exact fun h1 h2 => le_trans h2 h1

theorem priceDescLE_total (a b : MinifigureWebData) :
    priceDescLE a b || priceDescLE b a := by
  simp only [priceDescLE, Bool.or_eq_true, decide_eq_true_eq]
  exact le_total b.price a.price

/-- C2: the Aggregator returns the items sorted by price in descending
order, and the sort is stable: for every price, the equal-price items
appear in the output in their input order. -/
theorem C2_sort_descending_stable (input_list : List MinifigureWebData) :
    ((sort_minifigure_list input_list).2).Sorted (fun a b => b.price ≤ a.price)
    ∧ ∀ p : ℚ,
        ((sort_minifigure_list input_list).2).filter (fun f => decide (f.price = p))
          = input_list.filter (fun f => decide (f.price = p)) := by
  constructor
  · have hs := List.sorted_mergeSort
      priceDescLE_trans priceDescLE_total input_list
    have : (sort_minifigure_list input_list).2 = input_list.mergeSort priceDescLE := rfl
    rw [this]
    exact hs.imp (fun h => by simpa [priceDescLE] using h)
  · intro p
    have heq : (sort_minifigure_list input_list).2 = input_list.mergeSort priceDescLE := rfl
    rw [heq]
    set q : MinifigureWebData → Bool := fun f => decide (f.price = p) with hq
    have hmem : ∀ f ∈ input_list.filter q, f.price = p := by
      intro f hf
      have := List.of_mem_filter hf
      simpa [hq] using this
    have hpw : (input_list.filter q).Pairwise (fun a b => priceDescLE a b = true) := by
      apply List.pairwise_of_forall_mem_list
      intro a ha b hb
      simp only [priceDescLE, decide_eq_true_eq, hmem a ha, hmem b hb, le_refl]
    have hst : List.Sublist (input_list.filter q) (input_list.mergeSort priceDescLE) :=
      List.sublist_mergeSort priceDescLE_trans priceDescLE_total hpw
        (List.filter_sublist input_list)
    have h1 : List.Sublist (input_list.filter q)
        ((input_list.mergeSort priceDescLE).filter q) := by
      have := hst.filter q
      simpa [List.filter_filter] using this
    have hlen : ((input_list.mergeSort priceDescLE).filter q).length
        = (input_list.filter q).length :=
      ((List.mergeSort_perm input_list priceDescLE).filter q).length_eq
    exact (h1.eq_of_length hlen.symm).symm

theorem priceMatchAt_zero (s : List Char) :
    priceMatchAt s 0 =
      (AVG_PRICE_LITERAL.isPrefixOf s
        && (matchPriceGroup (s.drop AVG_PRICE_LITERAL.length)).isSome) := by
  simp [priceMatchAt]

theorem priceMatchAt_succ (c : Char) (cs : List Char) (i : Nat) :
    priceMatchAt (c :: cs) (i + 1) = priceMatchAt cs i := by
  simp [priceMatchAt]

theorem pricePatternOccurs_nil : ¬ pricePatternOccurs [] := by
  rintro ⟨i, hi⟩
  rw [priceMatchAt, List.drop_nil] at hi
  revert hi
  decide

theorem pricePatternOccurs_cons (c : Char) (cs : List Char) :
    pricePatternOccurs (c :: cs) ↔
      priceMatchAt (c :: cs) 0 = true ∨ pricePatternOccurs cs := by
  constructor
  · rintro ⟨i, hi⟩
    match i with
    | 0 => exact Or.inl hi
    | j + 1 => exact Or.inr ⟨j, by rwa [priceMatchAt_succ] at hi⟩
  · rintro (h | ⟨j, hj⟩)
    · exact ⟨0, h⟩
    · exact ⟨j + 1, by rwa [priceMatchAt_succ]⟩

/-- The scan returns `none` exactly when the pattern occurs nowhere. -/
theorem searchAvgPrice_eq_none_iff (s : List Char) :
    searchAvgPrice s = none ↔ ¬ pricePatternOccurs s := by
  induction s with
  | nil => simpa [searchAvgPrice] using pricePatternOccurs_nil
  | cons c cs ih =>
    rw [searchAvgPrice, pricePatternOccurs_cons, priceMatchAt_zero]
    by_cases hp : AVG_PRICE_LITERAL.isPrefixOf (c :: cs)
    · rw [if_pos hp]
      cases hm : matchPriceGroup ((c :: cs).drop AVG_PRICE_LITERAL.length) with
      | some g => simp [hp, hm]
      | none => simp [hp, hm, ih]
    · rw [if_neg hp]
      simp only [Bool.false_and, Bool.and_eq_true]
      simp [hp, ih]

/-- Evaluation helper for `parsePriceText` once the integer and fractional
digit runs are known. -/
theorem parsePriceText_eq (g ip fp : List Char)
    (h1 : (g.filter (fun c => !(c == ','))).takeWhile (fun c => !(c == '.')) = ip)
    (h2 : ((g.filter (fun c => !(c == ','))).dropWhile (fun c => !(c == '.'))).drop 1 = fp) :
    parsePriceText g =
      (digitsToNat ip : ℚ) + (digitsToNat fp : ℚ) / (10 : ℚ) ^ fp.length := by
  simp only [parsePriceText]
  rw [h1, h2]

theorem parsePriceText_group50 : parsePriceText examplePriceGroup = 2469 / 2 := by
  rw [parsePriceText_eq examplePriceGroup "1234".data "50".data (by decide) (by decide)]
  have e1 : digitsToNat "1234".data = 1234 := by decide
  have e2 : digitsToNat "50".data = 50 := by decide
  have e3 : ("50".data).length = 2 := by decide
  rw [e1, e2, e3]
  norm_num

theorem parsePriceText_group509 :
    parsePriceText ("1,234.509".data) = 1234509 / 1000 := by
  rw [parsePriceText_eq ("1,234.509".data) "1234".data "509".data (by decide) (by decide)]
  have e1 : digitsToNat "1234".data = 1234 := by decide
  have e2 : digitsToNat "509".data = 509 := by decide
  have e3 : ("509".data).length = 3 := by decide
  rw [e1, e2, e3]
  norm_num

/-- C3 counterexample: the claim quantifies over every text containing the
substring `"Avg Price: UAH 1,234.50"`, but on the text that extends it with
one more digit the parsed price is 1234.509, not 1234.50. -/
theorem C3_price_extraction_counterexample :
    C3text = C3goodText ++ "9".data
    ∧ extractAvgPrice C3text = some (1234509 / 1000)
    ∧ extractAvgPrice C3text ≠ some (2469 / 2) := by
  have hs : searchAvgPrice C3text = some ("1,234.509".data) := by decide
  have hv : extractAvgPrice C3text = some (1234509 / 1000) := by
    rw [extractAvgPrice, hs, Option.map_some', parsePriceText_group509]
  refine ⟨by decide, hv, ?_⟩
  rw [hv]
  intro hc
  rw [Option.some.injEq] at hc
  norm_num at hc

/-- C3 (amended): for any text on which the earliest regex match captures
exactly `"1,234.50"` — in particular the example text of the spec itself — the
parsed price equals 1234.50; and the extraction fails (ParseError) exactly
when the pattern `"Avg Price: UAH <number>"` occurs nowhere in the text. -/
theorem C3_price_extraction (s : List Char) :
    (searchAvgPrice s = some examplePriceGroup → extractAvgPrice s = some (2469 / 2))
    ∧ (extractAvgPrice s = none ↔ ¬ pricePatternOccurs s) := by
  constructor
  · intro h
    rw [extractAvgPrice, h, Option.map_some', parsePriceText_group50]
  · rw [extractAvgPrice]
    cases h : searchAvgPrice s with
    | none => simpa [h] using (searchAvgPrice_eq_none_iff s).mp h
    | some g =>
      simp only [h, Option.map_some']
      have hocc : pricePatternOccurs s := by
        by_contra hno
        have hn := (searchAvgPrice_eq_none_iff s).mpr hno
        rw [h] at hn
        exact Option.noConfusion hn
      constructor
      · intro hc; exact absurd hc (by simp)
      · intro hno; exact absurd hocc hno

/-- C3 witness: on the example text of the spec the search captures
`"1,234.50"` and the parsed price is 1234.50. -/
theorem C3_price_extraction_witness :
    searchAvgPrice C3goodText = some examplePriceGroup
    ∧ extractAvgPrice C3goodText = some (2469 / 2) :=
  ⟨by decide, (C3_price_extraction C3goodText).1 (by decide)⟩

/-- A record whose page passes every step up to the image download but
whose download status is not 200 makes its iteration raise the explicit
`ValueError` (the FetchError of the spec). -/
theorem fetch_one_http_fail (env : WebEnv) (r : MinifigureInputData)
    (hreach : reachesImageDownload (env r.link) = true)
    (hstatus : (env r.link).imageStatus ≠ 200) :
    fetch_one env r = .error (.httpError r.link) := by
  rw [reachesImageDownload, Bool.and_eq_true, Bool.and_eq_true] at hreach
  obtain ⟨⟨hname, htable⟩, himg⟩ := hreach
  obtain ⟨fetched_name, hn⟩ := Option.isSome_iff_exists.mp hname
  obtain ⟨u, hu⟩ := Option.isSome_iff_exists.mp himg
  cases ht : (env r.link).priceTableTexts.get? USED_FIGURE_TABLE_ID with
  | none => rw [ht] at htable; simp at htable
  | some table_text =>
    simp only [ht] at htable
    obtain ⟨price, hp⟩ := Option.isSome_iff_exists.mp htable
    simp only [fetch_one, hn, ht, hp, hu]
    rw [if_neg]
    simpa using hstatus

/-- C5: when the image download for the second of three records returns a
non-200 status (every step of that record before the download succeeding),
the whole run raises: the fetcher returns an error, `main` produces no
report or output document, and at most the item of the first record was ever
appended to the result list — nothing derived from record 2 or 3. -/
theorem C5_fatal_abort (excel : ExcelEnv) (web : WebEnv)
    (r1 r2 r3 : MinifigureInputData)
    (hread : read_excel excel = .ok [r1, r2, r3])
    (hreach : reachesImageDownload (web r2.link) = true)
    (hstatus : (web r2.link).imageStatus ≠ 200) :
    (∃ e, fetch_minifigures_data web [r1, r2, r3] = .error e)
    ∧ (∃ e, main excel web = .error e)
    ∧ (emittedItems web [r1, r2, r3]).length ≤ 1
    ∧ ∀ it ∈ emittedItems web [r1, r2, r3], fetch_one web r1 = .ok it := by
  have h2 : fetch_one web r2 = .error (.httpError r2.link) :=
    fetch_one_http_fail web r2 hreach hstatus
  have hfetch : ∃ e, fetch_minifigures_data web [r1, r2, r3] = .error e := by
    cases h1 : fetch_one web r1 with
    | error e => exact ⟨e, by simp [fetch_minifigures_data, h1]⟩
    | ok it1 =>
      exact ⟨.httpError r2.link, by simp [fetch_minifigures_data, h1, h2]⟩
  obtain ⟨e, he⟩ := hfetch
  refine ⟨⟨e, he⟩, ⟨.fetch e, ?_⟩, ?_, ?_⟩
  · simp only [main, hread, he]
  · cases h1 : fetch_one web r1 with
    | error _ => simp [emittedItems, h1]
    | ok it1 => simp [emittedItems, h1, h2]
  · intro it hit
    cases h1 : fetch_one web r1 with
    | error e1 => rw [emittedItems, h1] at hit; exact absurd hit (by simp)
    | ok it1 =>
      rw [emittedItems, h1] at hit
      rw [emittedItems, h2] at hit
      rw [List.mem_singleton] at hit
      subst hit
      rfl

/-- C5 witness: the concrete three-record run whose second image download
returns 404 aborts with no document and at most one emitted item. -/
theorem C5_fatal_abort_witness :
    read_excel wC5excel = .ok [wr1, wr2, wr3]
    ∧ reachesImageDownload (wWeb wr2.link) = true
    ∧ (wWeb wr2.link).imageStatus ≠ 200
    ∧ (∃ e, main wC5excel wWeb = .error e)
    ∧ (emittedItems wWeb [wr1, wr2, wr3]).length ≤ 1 := by
  have h := C5_fatal_abort wC5excel wWeb wr1 wr2 wr3 (by rfl) (by decide) (by decide)
  exact ⟨by rfl, by decide, by decide, h.2.1, h.2.2.1⟩

/-- Every per-record fetch in `input_list` succeeds. -/
def fetchSucceeds (env : WebEnv) (r : MinifigureInputData) : Bool :=
  match fetch_one env r with
  | .ok _ => true
  | .error _ => false

/-- C6: when every per-record fetch succeeds, the fetcher returns exactly
one `MinifigureWebData` per input record, in input order: the output has
the length of the input, and its i-th item is the fetch result of the i-th
record. -/
theorem C6_order_preservation (env : WebEnv) (input_list : List MinifigureInputData)
    (h : ∀ r ∈ input_list, fetchSucceeds env r = true) :
    ∃ out, fetch_minifigures_data env input_list = .ok out
      ∧ out.length = input_list.length
      ∧ ∀ (i : Nat) (hi : i < input_list.length) (ho : i < out.length),
          fetch_one env (input_list.get ⟨i, hi⟩) = .ok (out.get ⟨i, ho⟩) := by
  induction input_list with
  | nil =>
    exact ⟨[], rfl, rfl, fun i hi => absurd hi (Nat.not_lt_zero i)⟩
  | cons r rs ih =>
    have hr : fetchSucceeds env r = true := h r (List.mem_cons_self r rs)
    obtain ⟨it, hit⟩ : ∃ it, fetch_one env r = .ok it := by
      rw [fetchSucceeds] at hr
      cases hf : fetch_one env r with
      | ok it => exact ⟨it, rfl⟩
      | error e => rw [hf] at hr; exact absurd hr (by simp)
    obtain ⟨out, hout, hlen, hidx⟩ := ih (fun x hx => h x (List.mem_cons_of_mem r hx))
    refine ⟨it :: out, ?_, by simpa using hlen, ?_⟩
    · rw [fetch_minifigures_data, hit, hout]
    · intro i hi ho
      match i with
      | 0 => simpa using hit
      | j + 1 =>
        have hj : j < rs.length := by simpa using hi
        have hjo : j < out.length := by simpa using ho
        simpa using hidx j hj hjo

/-- C6 witness: a concrete two-record run on an all-good environment. -/
theorem C6_order_preservation_witness :
    (∀ r ∈ [wr1, wr2], fetchSucceeds wWebAllGood r = true)
    ∧ ∃ out, fetch_minifigures_data wWebAllGood [wr1, wr2] = .ok out
        ∧ out.length = ([wr1, wr2] : List MinifigureInputData).length
        ∧ ∀ (i : Nat) (hi : i < ([wr1, wr2] : List MinifigureInputData).length)
            (ho : i < out.length),
            fetch_one wWebAllGood (([wr1, wr2] : List MinifigureInputData).get ⟨i, hi⟩)
              = .ok (out.get ⟨i, ho⟩) :=
  ⟨by decide, C6_order_preservation wWebAllGood [wr1, wr2] (by decide)⟩

theorem renderRows_length (idx : Nat) (y : ℚ) (l : List MinifigureWebData) :
    (renderRows idx y l).length = l.length := by
  induction l generalizing idx y with
  | nil => rfl
  | cons d ds ih => simp [renderRows, ih]

/-- Elementwise description of the rendered rows: the i-th row drawn
carries rank `idx + i` and the name, price, quantity suffix
and image path. -/
theorem renderRows_get (l : List MinifigureWebData) (idx : Nat) (y : ℚ) (i : Nat)
    (hi : i < l.length) (hd : i < (renderRows idx y l).length) :
    ((renderRows idx y l).get ⟨i, hd⟩).rank = idx + i
    ∧ ((renderRows idx y l).get ⟨i, hd⟩).name = (l.get ⟨i, hi⟩).name
    ∧ ((renderRows idx y l).get ⟨i, hd⟩).price = (l.get ⟨i, hi⟩).price
    ∧ ((renderRows idx y l).get ⟨i, hd⟩).qtySuffix
        = price_cell_suffix (l.get ⟨i, hi⟩).quantity
    ∧ ((renderRows idx y l).get ⟨i, hd⟩).image = (l.get ⟨i, hi⟩).image := by
  induction l generalizing idx y i with
  | nil => exact absurd hi (Nat.not_lt_zero i)
  | cons d ds ih =>
    match i with
    | 0 => simp [renderRows]
    | j + 1 =>
      have hj : j < ds.length := by simpa using hi
      have hdj : j < (renderRows (idx + 1)
          ((if 260 < y then PDF_TOP_MARGIN else y) + 22) ds).length := by
        rw [renderRows_length]; exact hj
      have step := ih (idx + 1) ((if 260 < y then PDF_TOP_MARGIN else y) + 22) j hj hdj
      simp only [renderRows, List.get_cons_succ]
      refine ⟨?_, step.2.1, step.2.2.1, step.2.2.2.1, step.2.2.2.2⟩
      rw [step.1]
      omega

/-- The price cell carries the suffix `x<int(q)>` exactly for a present,
numeric, nonzero quantity. -/
theorem price_cell_suffix_some_iff (qo : Option PyFloat) (n : Int) :
    price_cell_suffix qo = some n ↔
      ∃ q : ℚ, qo = some (.val q) ∧ q ≠ 0 ∧ n = PyFloat.toInt (.val q) := by
  cases qo with
  | none => simp [price_cell_suffix]
  | some f =>
    cases f with
    | nan => simp [price_cell_suffix]
    | val q =>
      by_cases hq : q = 0
      · subst hq
        simp [price_cell_suffix]
      · rw [price_cell_suffix, if_neg hq]
        constructor
        · intro hn
          rw [Option.some.injEq] at hn
          exact ⟨q, rfl, hq, hn.symm⟩
        · rintro ⟨q2, hq2, -, hn⟩
          rw [Option.some.injEq, PyFloat.val.injEq] at hq2
          subst hq2
          rw [hn]

/-- C7 counterexample: an item with the numeric quantity 0 is present and
not NaN, yet its rendered price cell carries no quantity suffix (the Python
condition `not quantity` is true for the float 0.0). -/
theorem C7_report_rows_counterexample :
    C7item.quantity = some (PyFloat.val 0)
    ∧ PyFloat.isnan (PyFloat.val 0) = false
    ∧ (create_pdf_document [C7item]).map PdfRow.qtySuffix = [none] := by
  refine ⟨rfl, rfl, ?_⟩
  show [PdfRow.qtySuffix _] = [none]
  rw [List.cons.injEq]
  exact ⟨by decide, rfl⟩

/-- C7 (amended): the i-th rendered line carries the 1-based rank `i + 1`,
the name and price of the i-th item, and a quantity suffix exactly when
the quantity of that item is present, numeric (not NaN) and nonzero, the suffix value
being the truncated integer quantity. -/
theorem C7_report_rows (input_list : List MinifigureWebData) (i : Nat)
    (hi : i < input_list.length) :
    ∃ hd : i < (create_pdf_document input_list).length,
      ((create_pdf_document input_list).get ⟨i, hd⟩).rank = i + 1
      ∧ ((create_pdf_document input_list).get ⟨i, hd⟩).name
          = (input_list.get ⟨i, hi⟩).name
      ∧ ((create_pdf_document input_list).get ⟨i, hd⟩).price
          = (input_list.get ⟨i, hi⟩).price
      ∧ ∀ n : Int,
          ((create_pdf_document input_list).get ⟨i, hd⟩).qtySuffix = some n ↔
            ∃ q : ℚ, (input_list.get ⟨i, hi⟩).quantity = some (.val q)
              ∧ q ≠ 0 ∧ n = PyFloat.toInt (.val q) := by
  have hd : i < (create_pdf_document input_list).length := by
    rw [create_pdf_document, renderRows_length]; exact hi
  obtain ⟨h1, h2, h3, h4, -⟩ :=
    renderRows_get input_list 1 (PDF_TOP_MARGIN + 10 + 10) i hi hd
  have h1c : ((create_pdf_document input_list).get ⟨i, hd⟩).rank = 1 + i := h1
  have h4c : ((create_pdf_document input_list).get ⟨i, hd⟩).qtySuffix
      = price_cell_suffix (input_list.get ⟨i, hi⟩).quantity := h4
  refine ⟨hd, ?_, h2, h3, ?_⟩
  · rw [h1c]; omega
  · intro n
    rw [h4c]
    exact price_cell_suffix_some_iff _ n

/-- C7 witness: the single row of a concrete one-item report has rank 1. -/
theorem C7_report_rows_witness :
    ∃ hd : 0 < (create_pdf_document [C7item]).length,
      ((create_pdf_document [C7item]).get ⟨0, hd⟩).rank = 0 + 1 := by
  obtain ⟨hd, h1, -⟩ := C7_report_rows [C7item] 0 (by decide)
  exact ⟨hd, h1⟩

/-- The row loop succeeds when the Link column is present, producing one
record per row in order, each carrying the quantity cell of the row when the
Quantity column is present and `none` otherwise. -/
theorem readRows_ok (s : Sheet) (hlink : s.hasLinkColumn = true)
    (rows : List SheetRow) :
    ∃ out, readRows s rows = .ok out
      ∧ out.length = rows.length
      ∧ ∀ (i : Nat) (hi : i < rows.length) (ho : i < out.length),
          (out.get ⟨i, ho⟩).link = (rows.get ⟨i, hi⟩).link
          ∧ (out.get ⟨i, ho⟩).quantity
              = (if s.hasQuantityColumn then some (rows.get ⟨i, hi⟩).quantity
                 else none) := by
  induction rows with
  | nil => exact ⟨[], rfl, rfl, fun i hi => absurd hi (Nat.not_lt_zero i)⟩
  | cons r rest ih =>
    obtain ⟨out, hout, hlen, hidx⟩ := ih
    refine ⟨{ link := r.link,
              quantity := if s.hasQuantityColumn then some r.quantity else none } :: out,
            ?_, by simpa using hlen, ?_⟩
    · rw [readRows, if_pos hlink, hout]
    · intro i hi ho
      match i with
      | 0 => exact ⟨rfl, rfl⟩
      | j + 1 => simpa using hidx j (by simpa using hi) (by simpa using ho)

/-- C8 counterexample: with the Quantity column present but the cell empty
(pandas reads the cell as NaN) the quantity of the produced record is NaN,
not the distinguished `None` of the claim. -/
theorem C8_loader_counterexample :
    read_excel { sheet := some C8sheet }
      = .ok [{ link := wLink1, quantity := some PyFloat.nan }]
    ∧ (some PyFloat.nan : Option PyFloat) ≠ none := by
  exact ⟨rfl, by simp⟩

/-- C8 (amended): the loader fails with the missing-sheet DataFormatError
when the designated sheet is absent; with the Link column absent it fails
with the missing-column DataFormatError provided the sheet has at least one
row (an empty sheet loads as the empty record list); with the Link column
present it produces one record per row whose quantity is `None` when the
Quantity column is absent, and the cell value of the row (NaN for an empty cell)
when present — both unspecified markers distinct from the quantity 0. -/
theorem C8_loader (env : ExcelEnv) :
    (env.sheet = none → read_excel env = .error .missingSheet)
    ∧ (∀ s, env.sheet = some s → s.hasLinkColumn = false →
        (s.rows ≠ [] → read_excel env = .error .missingLinkColumn)
        ∧ (s.rows = [] → read_excel env = .ok []))
    ∧ (∀ s, env.sheet = some s → s.hasLinkColumn = true →
        ∃ out, read_excel env = .ok out
          ∧ out.length = s.rows.length
          ∧ ∀ (i : Nat) (hi : i < s.rows.length) (ho : i < out.length),
              (out.get ⟨i, ho⟩).link = (s.rows.get ⟨i, hi⟩).link
              ∧ (out.get ⟨i, ho⟩).quantity =
                  (if s.hasQuantityColumn then some (s.rows.get ⟨i, hi⟩).quantity
                   else none))
    ∧ (none : Option PyFloat) ≠ some (PyFloat.val 0)
    ∧ (some PyFloat.nan : Option PyFloat) ≠ some (PyFloat.val 0) := by
  refine ⟨?_, ?_, ?_, by simp, by simp⟩
  · intro h
    rw [read_excel, h]
  · intro s hs hlink
    constructor
    · intro hne
      match hr : s.rows with
      | [] => exact absurd hr hne
      | r :: rest =>
        simp only [read_excel, hs, hr, readRows]
        rw [if_neg (by simp [hlink])]
    · intro hempty
      simp only [read_excel, hs, hempty, readRows]
  · intro s hs hlink
    obtain ⟨out, hout, hlen, hidx⟩ := readRows_ok s hlink s.rows
    refine ⟨out, ?_, hlen, hidx⟩
    simp only [read_excel, hs]
    exact hout

/-- C8 witness: the loader run on the concrete one-row sheet with both
columns present. -/
theorem C8_loader_witness :
    ∃ out, read_excel { sheet := some C8sheet } = .ok out
      ∧ out.length = C8sheet.rows.length
      ∧ ∀ (i : Nat) (hi : i < C8sheet.rows.length) (ho : i < out.length),
          (out.get ⟨i, ho⟩).link = (C8sheet.rows.get ⟨i, hi⟩).link
          ∧ (out.get ⟨i, ho⟩).quantity =
              (if C8sheet.hasQuantityColumn then some (C8sheet.rows.get ⟨i, hi⟩).quantity
               else none) :=
  (C8_loader { sheet := some C8sheet }).2.2.1 C8sheet rfl rfl

end Minifigures
